import Mathlib

/-!
# Verification of the RKB NativeMinter precompile and EVM factory wiring

Shallow embedding of `crates/rkb/src/native_minter.rs` and
`crates/rkb/src/evm.rs`:

* `NativeMinterPrecompile.call` — the checked mint/burn decision procedure
  (gas, call-kind, static-context, authorization, calldata length, selector
  dispatch, argument decode, ledger mutation);
* `native_minter_fn` and `RkbEvmFactory.create_precompiles` — the stateless
  placeholder function that the factory actually registers at the fixed
  address `0x420`.

Addresses and 256-bit amounts are embedded as `Nat`; byte strings as
`List Nat` (each entry a byte value).  The host-EVM ledger capability
(revm's `EvmInternals`: `balance_incr`, `load_account`, `set_balance`) is
external to this repository and is modelled from the spec as an explicit
state record with per-call error oracles and a trace of the mutation
primitives invoked.
-/

namespace Rkb

/-- A 20-byte account address, embedded as a natural number. -/
abbrev Addr := Nat

/-- Big-endian interpretation of a byte string as a natural number. -/
def beBytesToNat (bs : List Nat) : Nat :=
  bs.foldl (fun acc b => acc * 256 + b) 0

/-- Precompile address `0x0000000000000000000000000000000000000420`
(`NATIVE_MINTER_ADDRESS` in `native_minter.rs`). -/
def NATIVE_MINTER_ADDRESS : Addr := 0x420

/-- Gas cost for mint/burn operations (`NATIVE_MINTER_GAS_COST`). -/
def NATIVE_MINTER_GAS_COST : Nat := 6000

/-- The 4-byte selector of `mint(address,uint256)`: `0x40c10f19`
(`<mintCall as SolCall>::SELECTOR`, pinned by `test_mint_selector`). -/
def mintCall_SELECTOR : List Nat := [0x40, 0xc1, 0x0f, 0x19]

/-- The 4-byte selector of `burn(address,uint256)`: `0x9dc29fac`
(`<burnCall as SolCall>::SELECTOR`, pinned by `test_burn_selector`). -/
def burnCall_SELECTOR : List Nat := [0x9d, 0xc2, 0x9f, 0xac]

/-- revm's `PrecompileError`, restricted to the constructors this code
produces: `OutOfGas`, and `Other`/`other_static` carrying a message. -/
inductive PrecompileError where
  | OutOfGas : PrecompileError
  | Other : String → PrecompileError
deriving DecidableEq, Repr

/-- revm's `PrecompileOutput` as built by `PrecompileOutput::new`:
gas consumed and output bytes. -/
structure PrecompileOutput where
  gas_used : Nat
  bytes : List Nat
deriving DecidableEq, Repr

deriving instance DecidableEq for Except

/-- `PrecompileResult = Result<PrecompileOutput, PrecompileError>`. -/
abbrev PrecompileResult := Except PrecompileError PrecompileOutput

/-- One invocation of a ledger balance-mutation primitive, recorded so the
theorems can talk about how often and with which arguments the capability
was invoked (the spec's test-double instrumentation). -/
inductive MutCall where
  | incr : Addr → Nat → MutCall
  | set : Addr → Nat → MutCall
deriving DecidableEq, Repr

/-- Modelled from the spec: the `LedgerMutationCapability` (§3) scoped to one
call.  The implementation behind revm's `EvmInternals` is out of scope
(§1), so it is modelled as the account-balance map together with error
oracles saying which primitive invocations the host ledger fails, and a
trace of the mutation primitives successfully invoked. -/
structure Ledger where
  balance : Addr → Nat
  incrErr : Addr → Nat → Option String
  loadErr : Addr → Option String
  setErr : Addr → Nat → Option String
  trace : List MutCall

/-- Modelled from the spec: the capability's balance-increase primitive
(revm `EvmInternals::balance_incr`): on success the target's balance grows
by exactly the amount and the invocation is recorded. -/
def Ledger.balance_incr (l : Ledger) (a : Addr) (amount : Nat) :
    Except String Ledger :=
  match l.incrErr a amount with
  | some e => .error e
  | none => .ok { l with
      balance := fun x => if x = a then l.balance x + amount else l.balance x
      trace := l.trace ++ [MutCall.incr a amount] }

/-- Modelled from the spec: the capability's balance read
(revm `EvmInternals::load_account`, of which `call` only uses
`account.data.info.balance`). -/
def Ledger.load_account (l : Ledger) (a : Addr) : Except String Nat :=
  match l.loadErr a with
  | some e => .error e
  | none => .ok (l.balance a)

/-- Modelled from the spec: the capability's balance-set primitive
(revm `EvmInternals::set_balance`). -/
def Ledger.set_balance (l : Ledger) (a : Addr) (amount : Nat) :
    Except String Ledger :=
  match l.setErr a amount with
  | some e => .error e
  | none => .ok { l with
      balance := fun x => if x = a then amount else l.balance x
      trace := l.trace ++ [MutCall.set a amount] }

/-- alloy-evm's `PrecompileInput`: the per-call context handed to the
precompile, carrying the ledger capability (`internals_mut`). -/
structure PrecompileInput where
  caller : Addr
  target_address : Addr
  bytecode_address : Addr
  gas : Nat
  data : List Nat
  is_static : Bool
  ledger : Ledger

/-- Modelled from the spec: alloy-evm's `PrecompileInput::is_direct_call` —
the call is direct (not DELEGATECALL-style) exactly when the executing
code's address equals the nominal target address (§4.1 check 2; the
source's warn-log prints both addresses). -/
def PrecompileInput.is_direct_call (i : PrecompileInput) : Bool :=
  i.target_address == i.bytecode_address

/-- alloy-evm's `PrecompileInput::is_static_call`: the read-only flag. -/
def PrecompileInput.is_static_call (i : PrecompileInput) : Bool :=
  i.is_static

/-- Modelled from the spec: the external ABI argument decoding (§6, out of
scope per §1) used by `mintCall::abi_decode` / `burnCall::abi_decode` on the
post-selector bytes: exactly two 32-byte words — a left-padded 20-byte
address and a big-endian unsigned 256-bit amount; any other shape fails. -/
def abi_decode_args (data : List Nat) : Option (Addr × Nat) :=
  if data.length = 64 then
    some (beBytesToNat (data.take 32) % 2 ^ 160,
          beBytesToNat ((data.drop 32).take 32))
  else
    none

/-- `NativeMinterPrecompile`: holds the single authorized bridge address. -/
structure NativeMinterPrecompile where
  authorized_bridge : Addr

/-- `NativeMinterPrecompile::execute_mint`: credit `amount` to `recipient`
via the capability's balance-increase primitive; ledger failure surfaces as
a `mint failed` error, success returns the fixed gas cost and empty output.
Returns the result together with the post-call ledger state. -/
def NativeMinterPrecompile.execute_mint (_p : NativeMinterPrecompile)
    (input : PrecompileInput) (recipient : Addr) (amount : Nat) :
    PrecompileResult × Ledger :=
  match input.ledger.balance_incr recipient amount with
  | .error e =>
      (.error (.Other ("NativeMinter: mint failed: " ++ e)), input.ledger)
  | .ok l =>
      (.ok ⟨NATIVE_MINTER_GAS_COST, []⟩, l)

/-- `NativeMinterPrecompile::execute_burn`: read the current balance of
`src`; if it is below `amount` reject with `insufficient balance` and no
mutation; otherwise set the balance to the exact difference.  Ledger
failures surface as `load account failed` / `burn failed` errors. -/
def NativeMinterPrecompile.execute_burn (_p : NativeMinterPrecompile)
    (input : PrecompileInput) (src : Addr) (amount : Nat) :
    PrecompileResult × Ledger :=
  match input.ledger.load_account src with
  | .error e =>
      (.error (.Other ("NativeMinter: load account failed: " ++ e)),
       input.ledger)
  | .ok current_balance =>
      if current_balance < amount then
        (.error (.Other "NativeMinter: insufficient balance"), input.ledger)
      else
        let new_balance := current_balance - amount
        match input.ledger.set_balance src new_balance with
        | .error e =>
            (.error (.Other ("NativeMinter: burn failed: " ++ e)),
             input.ledger)
        | .ok l =>
            (.ok ⟨NATIVE_MINTER_GAS_COST, []⟩, l)

/-- `NativeMinterPrecompile::call`: the precompile's decision procedure, in
the source's order — gas, direct-call, static-call, authorization, calldata
length, selector dispatch with argument decoding, then `execute_mint` or
`execute_burn`.  Returns the result together with the post-call ledger. -/
def NativeMinterPrecompile.call (p : NativeMinterPrecompile)
    (input : PrecompileInput) : PrecompileResult × Ledger :=
  if input.gas < NATIVE_MINTER_GAS_COST then
    (.error .OutOfGas, input.ledger)
  else if !input.is_direct_call then
    (.error (.Other "NativeMinter: DELEGATECALL not allowed"), input.ledger)
  else if input.is_static_call then
    (.error (.Other "NativeMinter: STATICCALL not allowed"), input.ledger)
  else if input.caller ≠ p.authorized_bridge then
    (.error (.Other "NativeMinter: unauthorized caller"), input.ledger)
  else if input.data.length < 4 then
    (.error (.Other "NativeMinter: invalid calldata length"), input.ledger)
  else
    let selector := input.data.take 4
    if selector = mintCall_SELECTOR then
      match abi_decode_args (input.data.drop 4) with
      | none =>
          (.error (.Other "NativeMinter: invalid mint args"), input.ledger)
      | some (recipient, amount) =>
          p.execute_mint input recipient amount
    else if selector = burnCall_SELECTOR then
      match abi_decode_args (input.data.drop 4) with
      | none =>
          (.error (.Other "NativeMinter: invalid burn args"), input.ledger)
      | some (src, amount) =>
          p.execute_burn input src amount
    else
      (.error (.Other "NativeMinter: unknown function"), input.ledger)

/-- `native_minter_fn` in `evm.rs`: the stateless placeholder the factory
registers at the fixed address — it checks only the gas limit and otherwise
returns success with empty output; it receives no ledger capability at
all. -/
def native_minter_fn (_input : List Nat) (gas_limit : Nat) :
    PrecompileResult :=
  if gas_limit < NATIVE_MINTER_GAS_COST then
    .error .OutOfGas
  else
    .ok ⟨NATIVE_MINTER_GAS_COST, []⟩

/-- A precompile operation set, as the address-indexed map that
`PrecompilesMap` provides: which stateless precompile function, if any, is
registered at each address. -/
abbrev PrecompilesMap := Addr → Option (List Nat → Nat → PrecompileResult)

/-- `RkbEvmFactory::create_precompiles`: clone the base (Cancun) precompile
set and extend the copy with `native_minter_fn` registered at
`NATIVE_MINTER_ADDRESS`.  The base set is taken as a parameter; Rust's
clone-then-extend becomes the pointwise override of the copy. -/
def RkbEvmFactory.create_precompiles (base : PrecompilesMap) :
    PrecompilesMap :=
  fun a =>
    if a = NATIVE_MINTER_ADDRESS then some native_minter_fn else base a

/-! ### The typed rejection kinds of the spec's taxonomy (§7), as the
concrete error values `call` produces. -/

/-- `DelegationNotPermitted` (§7). -/
def delegationNotPermittedErr : PrecompileError :=
  .Other "NativeMinter: DELEGATECALL not allowed"

/-- `MutationInReadOnlyContext` (§7). -/
def mutationInReadOnlyContextErr : PrecompileError :=
  .Other "NativeMinter: STATICCALL not allowed"

/-- `Unauthorized` (§7). -/
def unauthorizedErr : PrecompileError :=
  .Other "NativeMinter: unauthorized caller"

/-- `MalformedCall` (§7), payload-too-short case. -/
def invalidCalldataLengthErr : PrecompileError :=
  .Other "NativeMinter: invalid calldata length"

/-- `MalformedCall` (§7), mint-argument-decode-failure case. -/
def invalidMintArgsErr : PrecompileError :=
  .Other "NativeMinter: invalid mint args"

/-- `MalformedCall` (§7), burn-argument-decode-failure case. -/
def invalidBurnArgsErr : PrecompileError :=
  .Other "NativeMinter: invalid burn args"

/-- `UnknownOperation` (§7). -/
def unknownOperationErr : PrecompileError :=
  .Other "NativeMinter: unknown function"

/-- `InsufficientBalance` (§7). -/
def insufficientBalanceErr : PrecompileError :=
  .Other "NativeMinter: insufficient balance"

/-- The rejection kinds of §7 other than `LedgerError`: exactly the error
values named in claim C4. -/
def rejectionKinds : List PrecompileError :=
  [.OutOfGas, delegationNotPermittedErr, mutationInReadOnlyContextErr,
   unauthorizedErr, invalidCalldataLengthErr, invalidMintArgsErr,
   invalidBurnArgsErr, unknownOperationErr, insufficientBalanceErr]


/-! ### Concrete test fixtures used by the witness theorems -/

/-- An in-memory test ledger: all balances zero, no ledger faults, empty
invocation trace. -/
def zeroLedger : Ledger :=
  { balance := fun _ => 0
    incrErr := fun _ _ => none
    loadErr := fun _ => none
    setErr := fun _ _ => none
    trace := [] }

/-- A precompile instance whose authorized bridge is address `1`. -/
def testPrecompile : NativeMinterPrecompile := ⟨1⟩

/-- Calldata for `mint(address 5, 1000)`: mint selector, a 32-byte padded
address word, and a 32-byte big-endian amount word (1000 = 3·256 + 232). -/
def testMintPayload : List Nat :=
  mintCall_SELECTOR ++ (List.replicate 31 0 ++ [5]) ++
    (List.replicate 30 0 ++ [3, 232])

/-- Calldata for `burn(address 5, 1000)`. -/
def testBurnPayload : List Nat :=
  burnCall_SELECTOR ++ (List.replicate 31 0 ++ [5]) ++
    (List.replicate 30 0 ++ [3, 232])

/-- A direct, non-static call context from the authorized caller with ample
gas, carrying the mint payload over the zero ledger. -/
def testInput : PrecompileInput :=
  { caller := 1
    target_address := NATIVE_MINTER_ADDRESS
    bytecode_address := NATIVE_MINTER_ADDRESS
    gas := 10000
    data := testMintPayload
    is_static := false
    ledger := zeroLedger }

/-- The burn call context that follows the test mint with no intervening
operations: same caller, payload `burn(5, 1000)`, over the post-mint
ledger. -/
def testRoundTripBurnInput : PrecompileInput :=
  { testInput with
    data := testBurnPayload
    ledger := (testPrecompile.call testInput).2 }

/-! ### Helper lemmas: branch characterizations of `call` -/

/-- The two dispatch selectors are distinct byte strings. -/
theorem burnSelector_ne_mintSelector : burnCall_SELECTOR ≠ mintCall_SELECTOR := by
  decide

/-- A payload whose first four bytes form a full selector has length ≥ 4. -/
theorem length_ge_four_of_take_four {data sel : List Nat}
    (hsel : data.take 4 = sel) (hlen : sel.length = 4) :
    ¬ data.length < 4 := by
  have h := congrArg List.length hsel
  simp [List.length_take, hlen] at h
  omega

/-- When every precondition passes and the selector is the mint selector,
`call` defers to `execute_mint`. -/
theorem call_mint_branch (p : NativeMinterPrecompile) (i : PrecompileInput)
    (recipient amount : Nat)
    (hgas : ¬ i.gas < NATIVE_MINTER_GAS_COST) (hdir : i.is_direct_call = true)
    (hstat : i.is_static_call = false) (hauth : i.caller = p.authorized_bridge)
    (hsel : i.data.take 4 = mintCall_SELECTOR)
    (hdec : abi_decode_args (i.data.drop 4) = some (recipient, amount)) :
    p.call i = p.execute_mint i recipient amount := by
  have hlen : ¬ i.data.length < 4 := length_ge_four_of_take_four hsel rfl
  simp [NativeMinterPrecompile.call, hsel, hdec, *]

/-- When every precondition passes and the selector is the burn selector,
`call` defers to `execute_burn`. -/
theorem call_burn_branch (p : NativeMinterPrecompile) (i : PrecompileInput)
    (src amount : Nat)
    (hgas : ¬ i.gas < NATIVE_MINTER_GAS_COST) (hdir : i.is_direct_call = true)
    (hstat : i.is_static_call = false) (hauth : i.caller = p.authorized_bridge)
    (hsel : i.data.take 4 = burnCall_SELECTOR)
    (hdec : abi_decode_args (i.data.drop 4) = some (src, amount)) :
    p.call i = p.execute_burn i src amount := by
  have hlen : ¬ i.data.length < 4 := length_ge_four_of_take_four hsel rfl
  simp [NativeMinterPrecompile.call, hsel, hdec, burnSelector_ne_mintSelector, *]

/-- Every branch of `call` either leaves the ledger untouched or succeeds. -/
theorem call_ledger_unchanged_or_ok (p : NativeMinterPrecompile)
    (i : PrecompileInput) :
    (p.call i).2 = i.ledger ∨ ∃ o : PrecompileOutput, (p.call i).1 = .ok o := by
  by_cases h1 : i.gas < NATIVE_MINTER_GAS_COST
  · exact .inl (by simp [NativeMinterPrecompile.call, h1])
  by_cases h2 : i.is_direct_call = true
  case neg =>
    have h2f : i.is_direct_call = false := by simpa using h2
    exact .inl (by simp [NativeMinterPrecompile.call, h1, h2f])
  by_cases h3 : i.is_static_call = true
  · exact .inl (by simp [NativeMinterPrecompile.call, h1, h2, h3])
  have h3f : i.is_static_call = false := by simpa using h3
  by_cases h4 : i.caller = p.authorized_bridge
  case neg =>
    exact .inl (by simp [NativeMinterPrecompile.call, h1, h2, h3f, h4])
  by_cases h5 : i.data.length < 4
  · exact .inl (by simp [NativeMinterPrecompile.call, h1, h2, h3f, h4, h5])
  by_cases hm : i.data.take 4 = mintCall_SELECTOR
  · cases hdec : abi_decode_args (i.data.drop 4) with
    | none =>
        exact .inl (by
          simp [NativeMinterPrecompile.call, h1, h2, h3f, h4, h5, hm, hdec])
    | some ra =>
        obtain ⟨recipient, amount⟩ := ra
        rw [call_mint_branch p i recipient amount h1 h2 h3f h4 hm hdec]
        cases hinc : i.ledger.incrErr recipient amount with
        | some e =>
            exact .inl (by
              simp [NativeMinterPrecompile.execute_mint, Ledger.balance_incr,
                hinc])
        | none =>
            exact .inr ⟨⟨NATIVE_MINTER_GAS_COST, []⟩, by
              simp [NativeMinterPrecompile.execute_mint, Ledger.balance_incr,
                hinc]⟩
  by_cases hb : i.data.take 4 = burnCall_SELECTOR
  · cases hdec : abi_decode_args (i.data.drop 4) with
    | none =>
        exact .inl (by
          simp [NativeMinterPrecompile.call, h1, h2, h3f, h4, h5, hm, hb, hdec,
            burnSelector_ne_mintSelector])
    | some sa =>
        obtain ⟨src, amount⟩ := sa
        rw [call_burn_branch p i src amount h1 h2 h3f h4 hb hdec]
        cases hload : i.ledger.loadErr src with
        | some e =>
            exact .inl (by
              simp [NativeMinterPrecompile.execute_burn, Ledger.load_account,
                hload])
        | none =>
            by_cases hbal : i.ledger.balance src < amount
            · exact .inl (by
                simp [NativeMinterPrecompile.execute_burn, Ledger.load_account,
                  hload, hbal])
            cases hset : i.ledger.setErr src (i.ledger.balance src - amount)
              with
            | some e =>
                exact .inl (by
                  simp [NativeMinterPrecompile.execute_burn,
                    Ledger.load_account, Ledger.set_balance, hload, hbal, hset])
            | none =>
                exact .inr ⟨⟨NATIVE_MINTER_GAS_COST, []⟩, by
                  simp [NativeMinterPrecompile.execute_burn,
                    Ledger.load_account, Ledger.set_balance, hload, hbal, hset]⟩
  · exact .inl (by simp [NativeMinterPrecompile.call, h1, h2, h3f, h4, h5, hm, hb])

/-- On any error result the ledger comes back exactly as it went in. -/
theorem call_error_ledger (p : NativeMinterPrecompile) (i : PrecompileInput)
    (e : PrecompileError) (herr : (p.call i).1 = .error e) :
    (p.call i).2 = i.ledger := by
  rcases call_ledger_unchanged_or_ok p i with h | ⟨o, ho⟩
  · exact h
  · rw [herr] at ho
    cases ho

/-- A successful call with a mint payload performed exactly the decoded
balance increase. -/
theorem call_ok_mint_effect (p : NativeMinterPrecompile) (i : PrecompileInput)
    (recipient amount : Nat) (o : PrecompileOutput)
    (hsel : i.data.take 4 = mintCall_SELECTOR)
    (hdec : abi_decode_args (i.data.drop 4) = some (recipient, amount))
    (hok : (p.call i).1 = .ok o) :
    ∀ a, (p.call i).2.balance a =
      if a = recipient then i.ledger.balance a + amount
      else i.ledger.balance a := by
  by_cases h1 : i.gas < NATIVE_MINTER_GAS_COST
  · simp [NativeMinterPrecompile.call, h1] at hok
  by_cases h2 : i.is_direct_call = true
  case neg =>
    have h2f : i.is_direct_call = false := by simpa using h2
    simp [NativeMinterPrecompile.call, h1, h2f] at hok
  by_cases h3 : i.is_static_call = true
  · simp [NativeMinterPrecompile.call, h1, h2, h3] at hok
  have h3f : i.is_static_call = false := by simpa using h3
  by_cases h4 : i.caller = p.authorized_bridge
  case neg => simp [NativeMinterPrecompile.call, h1, h2, h3f, h4] at hok
  rw [call_mint_branch p i recipient amount h1 h2 h3f h4 hsel hdec] at hok ⊢
  cases hinc : i.ledger.incrErr recipient amount with
  | some e =>
      simp [NativeMinterPrecompile.execute_mint, Ledger.balance_incr, hinc]
        at hok
  | none =>
      intro a
      simp [NativeMinterPrecompile.execute_mint, Ledger.balance_incr, hinc]

/-- A successful call with a burn payload had a sufficient balance and
performed exactly the decoded balance decrease. -/
theorem call_ok_burn_effect (p : NativeMinterPrecompile) (i : PrecompileInput)
    (src amount : Nat) (o : PrecompileOutput)
    (hsel : i.data.take 4 = burnCall_SELECTOR)
    (hdec : abi_decode_args (i.data.drop 4) = some (src, amount))
    (hok : (p.call i).1 = .ok o) :
    amount ≤ i.ledger.balance src ∧
    ∀ a, (p.call i).2.balance a =
      if a = src then i.ledger.balance src - amount
      else i.ledger.balance a := by
  by_cases h1 : i.gas < NATIVE_MINTER_GAS_COST
  · simp [NativeMinterPrecompile.call, h1] at hok
  by_cases h2 : i.is_direct_call = true
  case neg =>
    have h2f : i.is_direct_call = false := by simpa using h2
    simp [NativeMinterPrecompile.call, h1, h2f] at hok
  by_cases h3 : i.is_static_call = true
  · simp [NativeMinterPrecompile.call, h1, h2, h3] at hok
  have h3f : i.is_static_call = false := by simpa using h3
  by_cases h4 : i.caller = p.authorized_bridge
  case neg => simp [NativeMinterPrecompile.call, h1, h2, h3f, h4] at hok
  rw [call_burn_branch p i src amount h1 h2 h3f h4 hsel hdec] at hok ⊢
  cases hload : i.ledger.loadErr src with
  | some e =>
      simp [NativeMinterPrecompile.execute_burn, Ledger.load_account, hload]
        at hok
  | none =>
  by_cases hbal : i.ledger.balance src < amount
  · simp [NativeMinterPrecompile.execute_burn, Ledger.load_account, hload,
      hbal] at hok
  cases hset : i.ledger.setErr src (i.ledger.balance src - amount) with
  | some e =>
      simp [NativeMinterPrecompile.execute_burn, Ledger.load_account,
        Ledger.set_balance, hload, hbal, hset] at hok
  | none =>
      refine ⟨Nat.le_of_not_lt hbal, fun a => ?_⟩
      simp [NativeMinterPrecompile.execute_burn, Ledger.load_account,
        Ledger.set_balance, hload, hbal, hset]


/-! ### Claim theorems -/

/-- C2: invoke's outcome is decided by the checks in this fixed order, the
first failing check determining the typed rejection: gas below the fixed
cost → OutOfGas; delegated call → DelegationNotPermitted; read-only
context → MutationInReadOnlyContext; caller differing from the authorized
caller → Unauthorized; payload shorter than 4 bytes → MalformedCall; first
4 bytes matching neither selector (any other byte pattern, including a
single-bit flip of a valid selector) → UnknownOperation; argument decode
failure → MalformedCall. -/
theorem call_check_order (p : NativeMinterPrecompile) (i : PrecompileInput) :
    (i.gas < NATIVE_MINTER_GAS_COST → (p.call i).1 = .error .OutOfGas) ∧
    (¬ i.gas < NATIVE_MINTER_GAS_COST → i.is_direct_call = false →
      (p.call i).1 = .error delegationNotPermittedErr) ∧
    (¬ i.gas < NATIVE_MINTER_GAS_COST → i.is_direct_call = true →
      i.is_static_call = true →
      (p.call i).1 = .error mutationInReadOnlyContextErr) ∧
    (¬ i.gas < NATIVE_MINTER_GAS_COST → i.is_direct_call = true →
      i.is_static_call = false → i.caller ≠ p.authorized_bridge →
      (p.call i).1 = .error unauthorizedErr) ∧
    (¬ i.gas < NATIVE_MINTER_GAS_COST → i.is_direct_call = true →
      i.is_static_call = false → i.caller = p.authorized_bridge →
      i.data.length < 4 → (p.call i).1 = .error invalidCalldataLengthErr) ∧
    (¬ i.gas < NATIVE_MINTER_GAS_COST → i.is_direct_call = true →
      i.is_static_call = false → i.caller = p.authorized_bridge →
      ¬ i.data.length < 4 → i.data.take 4 ≠ mintCall_SELECTOR →
      i.data.take 4 ≠ burnCall_SELECTOR →
      (p.call i).1 = .error unknownOperationErr) ∧
    (¬ i.gas < NATIVE_MINTER_GAS_COST → i.is_direct_call = true →
      i.is_static_call = false → i.caller = p.authorized_bridge →
      ¬ i.data.length < 4 → i.data.take 4 = mintCall_SELECTOR →
      abi_decode_args (i.data.drop 4) = none →
      (p.call i).1 = .error invalidMintArgsErr) ∧
    (¬ i.gas < NATIVE_MINTER_GAS_COST → i.is_direct_call = true →
      i.is_static_call = false → i.caller = p.authorized_bridge →
      ¬ i.data.length < 4 → i.data.take 4 = burnCall_SELECTOR →
      abi_decode_args (i.data.drop 4) = none →
      (p.call i).1 = .error invalidBurnArgsErr) := by
  refine ⟨?_, ?_, ?_, ?_, ?_, ?_, ?_, ?_⟩ <;> intros <;>
    simp [NativeMinterPrecompile.call, delegationNotPermittedErr,
      mutationInReadOnlyContextErr, unauthorizedErr, invalidCalldataLengthErr,
      invalidMintArgsErr, invalidBurnArgsErr, unknownOperationErr,
      burnSelector_ne_mintSelector, *]

/-- Witness for C2: on a direct, authorized, well-funded call whose selector
is a single-bit flip of the mint selector (`0x41c10f19`), the result is the
UnknownOperation rejection. -/
theorem call_check_order_witness :
    (testPrecompile.call
        { testInput with data := [0x41, 0xc1, 0x0f, 0x19] }).1 =
      .error unknownOperationErr :=
  (call_check_order testPrecompile
      { testInput with data := [0x41, 0xc1, 0x0f, 0x19] }).2.2.2.2.2.1
    (by decide) (by decide) (by decide) (by decide) (by decide) (by decide)
    (by decide)

/-- C3: whenever the gas, call-kind and read-only checks pass but the caller
differs from the configured authorized caller, invoke returns Unauthorized
regardless of the payload's content, length or well-formedness, and the
ledger (balances and invocation trace alike) is returned untouched. -/
theorem unauthorized_short_circuit (p : NativeMinterPrecompile)
    (i : PrecompileInput)
    (hgas : ¬ i.gas < NATIVE_MINTER_GAS_COST)
    (hdir : i.is_direct_call = true) (hstat : i.is_static_call = false)
    (hne : i.caller ≠ p.authorized_bridge) :
    (p.call i).1 = .error unauthorizedErr ∧ (p.call i).2 = i.ledger := by
  constructor <;> simp [NativeMinterPrecompile.call, unauthorizedErr, *]

/-- Witness for C3: a direct, non-static, well-funded call from caller `2`
(not the authorized `1`) with a perfectly well-formed mint payload is
rejected as unauthorized with the ledger unchanged. -/
theorem unauthorized_short_circuit_witness :
    (testPrecompile.call { testInput with caller := 2 }).1 =
      .error unauthorizedErr ∧
    (testPrecompile.call { testInput with caller := 2 }).2 =
      ({ testInput with caller := 2 } : PrecompileInput).ledger :=
  unauthorized_short_circuit testPrecompile { testInput with caller := 2 }
    (by decide) (by decide) (by decide) (by decide)

/-- C4: every invocation that returns one of the rejection kinds (OutOfGas,
DelegationNotPermitted, MutationInReadOnlyContext, Unauthorized,
MalformedCall, UnknownOperation, InsufficientBalance) invokes the ledger's
balance-mutation primitives zero times — the invocation trace is unchanged —
and leaves every account's balance unchanged. -/
theorem no_mutation_on_rejection (p : NativeMinterPrecompile)
    (i : PrecompileInput) (e : PrecompileError)
    (herr : (p.call i).1 = .error e) (hmem : e ∈ rejectionKinds) :
    (p.call i).2.trace = i.ledger.trace ∧
    ∀ a, (p.call i).2.balance a = i.ledger.balance a := by
  have h := call_error_ledger p i e herr
  rw [h]
  exact ⟨rfl, fun a => rfl⟩

/-- Witness for C4: a call with gas 10 (below the fixed cost) is rejected
with OutOfGas and leaves the trace empty and the balance of `5` at zero. -/
theorem no_mutation_on_rejection_witness :
    (testPrecompile.call { testInput with gas := 10 }).2.trace = [] ∧
    (testPrecompile.call { testInput with gas := 10 }).2.balance 5 = 0 := by
  have h := no_mutation_on_rejection testPrecompile
    { testInput with gas := 10 } .OutOfGas (by decide) (by decide)
  exact ⟨h.1, h.2 5⟩

/-- C5: on an authorized, direct, mutating burn call decoding to
`(src, amount)` whose balance read succeeds: if the current balance is below
the amount the result is InsufficientBalance and the balance is unchanged;
otherwise the balance-set primitive is invoked with exactly
`currentBalance - amount` (exact non-wrapping subtraction, as the final
conjunct records), and on ledger success the call returns Success with
gasUsed the fixed cost and empty output. -/
theorem burn_balance_semantics (p : NativeMinterPrecompile)
    (i : PrecompileInput) (src amount : Nat)
    (hgas : ¬ i.gas < NATIVE_MINTER_GAS_COST)
    (hdir : i.is_direct_call = true) (hstat : i.is_static_call = false)
    (hauth : i.caller = p.authorized_bridge)
    (hsel : i.data.take 4 = burnCall_SELECTOR)
    (hdec : abi_decode_args (i.data.drop 4) = some (src, amount))
    (hload : i.ledger.loadErr src = none) :
    (i.ledger.balance src < amount →
      (p.call i).1 = .error insufficientBalanceErr ∧
      ∀ a, (p.call i).2.balance a = i.ledger.balance a) ∧
    (¬ i.ledger.balance src < amount →
      i.ledger.setErr src (i.ledger.balance src - amount) = none →
      (p.call i).1 = .ok ⟨NATIVE_MINTER_GAS_COST, []⟩ ∧
      (p.call i).2.trace =
        i.ledger.trace ++ [MutCall.set src (i.ledger.balance src - amount)] ∧
      (p.call i).2.balance src = i.ledger.balance src - amount ∧
      amount + (i.ledger.balance src - amount) = i.ledger.balance src) := by
  rw [call_burn_branch p i src amount hgas hdir hstat hauth hsel hdec]
  constructor
  · intro hlt
    constructor
    · simp [NativeMinterPrecompile.execute_burn, Ledger.load_account, hload,
        hlt, insufficientBalanceErr]
    · intro a
      simp [NativeMinterPrecompile.execute_burn, Ledger.load_account, hload,
        hlt]
  · intro hge hset
    refine ⟨?_, ?_, ?_, Nat.add_sub_cancel' (Nat.le_of_not_lt hge)⟩ <;>
      simp [NativeMinterPrecompile.execute_burn, Ledger.load_account,
        Ledger.set_balance, hload, hge, hset]


/-- Witness for C5: burning 1000 from address `5` holding 2000 succeeds with
the fixed gas cost, records exactly one balance-set invocation with the new
balance 1000, and leaves the balance at 1000 = 2000 - 1000. -/
theorem burn_balance_semantics_witness :
    (testPrecompile.call
        { testInput with
          data := testBurnPayload
          ledger := { zeroLedger with
            balance := fun a => if a = 5 then 2000 else 0 } }).1 =
      .ok ⟨NATIVE_MINTER_GAS_COST, []⟩ ∧
    (testPrecompile.call
        { testInput with
          data := testBurnPayload
          ledger := { zeroLedger with
            balance := fun a => if a = 5 then 2000 else 0 } }).2.balance 5 =
      1000 := by
  have h := (burn_balance_semantics testPrecompile
      { testInput with
        data := testBurnPayload
        ledger := { zeroLedger with
          balance := fun a => if a = 5 then 2000 else 0 } }
      5 1000 (by decide) (by decide) (by decide) (by decide) (by decide)
      (by decide) rfl).2 (by decide) rfl
  exact ⟨h.1, h.2.2.1⟩

/-- C6: on an authorized, direct, mutating mint call with sufficient gas
decoding to `(recipient, amount)`, the balance-increase primitive is invoked
exactly once with `(recipient, amount)` — the trace is extended by exactly
that invocation and the recipient's balance grows by exactly the amount —
and the result is Success with gasUsed the fixed cost and empty output; a
ledger failure is surfaced as the mint-failed LedgerError. -/
theorem mint_balance_semantics (p : NativeMinterPrecompile)
    (i : PrecompileInput) (recipient amount : Nat)
    (hgas : ¬ i.gas < NATIVE_MINTER_GAS_COST)
    (hdir : i.is_direct_call = true) (hstat : i.is_static_call = false)
    (hauth : i.caller = p.authorized_bridge)
    (hsel : i.data.take 4 = mintCall_SELECTOR)
    (hdec : abi_decode_args (i.data.drop 4) = some (recipient, amount)) :
    (i.ledger.incrErr recipient amount = none →
      (p.call i).1 = .ok ⟨NATIVE_MINTER_GAS_COST, []⟩ ∧
      (p.call i).2.trace =
        i.ledger.trace ++ [MutCall.incr recipient amount] ∧
      (p.call i).2.balance recipient =
        i.ledger.balance recipient + amount) ∧
    (∀ e, i.ledger.incrErr recipient amount = some e →
      (p.call i).1 =
        .error (.Other ("NativeMinter: mint failed: " ++ e))) := by
  rw [call_mint_branch p i recipient amount hgas hdir hstat hauth hsel hdec]
  constructor
  · intro hinc
    refine ⟨?_, ?_, ?_⟩ <;>
      simp [NativeMinterPrecompile.execute_mint, Ledger.balance_incr, hinc]
  · intro e hinc
    simp [NativeMinterPrecompile.execute_mint, Ledger.balance_incr, hinc]

/-- Witness for C6: the spec's concrete scenario — authorized caller,
direct mutating call, payload `mint(5, 1000)`, gas 10000 — succeeds with the
fixed cost, one recorded balance-increase invocation `(5, 1000)`, and the
balance of `5` raised by exactly 1000. -/
theorem mint_balance_semantics_witness :
    (testPrecompile.call testInput).1 = .ok ⟨NATIVE_MINTER_GAS_COST, []⟩ ∧
    (testPrecompile.call testInput).2.trace = [MutCall.incr 5 1000] ∧
    (testPrecompile.call testInput).2.balance 5 = 1000 := by
  have h := (mint_balance_semantics testPrecompile testInput 5 1000
    (by decide) (by decide) (by decide) (by decide) (by decide)
    (by decide)).1 rfl
  exact ⟨h.1, h.2.1, h.2.2⟩

/-- C7: on a call whose caller, gas and payload are otherwise valid for a
successful mint or burn, a delegated call is rejected with
DelegationNotPermitted, and a read-only (static) call is rejected with
MutationInReadOnlyContext. -/
theorem context_gating (p : NativeMinterPrecompile) (i : PrecompileInput)
    (X amount : Nat)
    (hgas : ¬ i.gas < NATIVE_MINTER_GAS_COST)
    (hauth : i.caller = p.authorized_bridge)
    (hsel : i.data.take 4 = mintCall_SELECTOR ∨
      i.data.take 4 = burnCall_SELECTOR)
    (hdec : abi_decode_args (i.data.drop 4) = some (X, amount)) :
    (i.is_direct_call = false →
      (p.call i).1 = .error delegationNotPermittedErr) ∧
    (i.is_direct_call = true → i.is_static_call = true →
      (p.call i).1 = .error mutationInReadOnlyContextErr) := by
  constructor
  · intro hdel
    simp [NativeMinterPrecompile.call, delegationNotPermittedErr, hgas, hdel]
  · intro hdir hstat
    simp [NativeMinterPrecompile.call, mutationInReadOnlyContextErr, hgas,
      hdir, hstat]

/-- Witness for C7: with the authorized caller, ample gas and a valid mint
payload, a delegated call (bytecode address `0x421` differing from the
target `0x420`) is rejected with DelegationNotPermitted, and a static call
is rejected with MutationInReadOnlyContext. -/
theorem context_gating_witness :
    (testPrecompile.call
        { testInput with bytecode_address := 0x421 }).1 =
      .error delegationNotPermittedErr ∧
    (testPrecompile.call { testInput with is_static := true }).1 =
      .error mutationInReadOnlyContextErr := by
  constructor
  · exact (context_gating testPrecompile
      { testInput with bytecode_address := 0x421 } 5 1000 (by decide)
      (by decide) (Or.inl (by decide)) (by decide)).1 (by decide)
  · exact (context_gating testPrecompile
      { testInput with is_static := true } 5 1000 (by decide)
      (by decide) (Or.inl (by decide)) (by decide)).2 (by decide) (by decide)

/-- C8: a successful mint of `amount` to `X` followed, with no intervening
operations, by a successful burn of `amount` from `X` — both authorized,
direct, non-static, well-funded calls — restores the balance of `X` to its
pre-mint value, for every starting ledger state. -/
theorem mint_burn_round_trip (p : NativeMinterPrecompile)
    (i1 i2 : PrecompileInput) (X amount : Nat) (o1 o2 : PrecompileOutput)
    (h1gas : ¬ i1.gas < NATIVE_MINTER_GAS_COST)
    (h1dir : i1.is_direct_call = true) (h1stat : i1.is_static_call = false)
    (h1auth : i1.caller = p.authorized_bridge)
    (h1sel : i1.data.take 4 = mintCall_SELECTOR)
    (h1dec : abi_decode_args (i1.data.drop 4) = some (X, amount))
    (h1ok : (p.call i1).1 = .ok o1)
    (h2led : i2.ledger = (p.call i1).2)
    (h2gas : ¬ i2.gas < NATIVE_MINTER_GAS_COST)
    (h2dir : i2.is_direct_call = true) (h2stat : i2.is_static_call = false)
    (h2auth : i2.caller = p.authorized_bridge)
    (h2sel : i2.data.take 4 = burnCall_SELECTOR)
    (h2dec : abi_decode_args (i2.data.drop 4) = some (X, amount))
    (h2ok : (p.call i2).1 = .ok o2) :
    (p.call i2).2.balance X = i1.ledger.balance X := by
  have hm := call_ok_mint_effect p i1 X amount o1 h1sel h1dec h1ok X
  have hb := (call_ok_burn_effect p i2 X amount o2 h2sel h2dec h2ok).2 X
  simp only [if_pos rfl, if_true, eq_self_iff_true] at hm hb
  rw [hb, h2led, hm]
  omega

/-- Witness for C8: minting 1000 to address `5` over the zero ledger and
then burning 1000 from `5` restores the balance of `5` to 0. -/
theorem mint_burn_round_trip_witness :
    (testPrecompile.call testRoundTripBurnInput).2.balance 5 = 0 :=
  mint_burn_round_trip testPrecompile testInput testRoundTripBurnInput 5 1000
    ⟨NATIVE_MINTER_GAS_COST, []⟩ ⟨NATIVE_MINTER_GAS_COST, []⟩
    (by decide) (by decide) (by decide) (by decide) (by decide) (by decide)
    (by decide) rfl (by decide) (by decide) (by decide) (by decide)
    (by decide) (by decide) (by decide)

/-- C9: create_precompiles is copy-then-extend — for every base operation
set, the returned set registers exactly the native-minter operation at the
fixed address and agrees with the base set at every other address; the base
set (a value in this embedding) is itself untouched. -/
theorem create_precompiles_copy_extend (base : PrecompilesMap) :
    RkbEvmFactory.create_precompiles base NATIVE_MINTER_ADDRESS =
      some native_minter_fn ∧
    ∀ a, a ≠ NATIVE_MINTER_ADDRESS →
      RkbEvmFactory.create_precompiles base a = base a := by
  constructor
  · simp [RkbEvmFactory.create_precompiles]
  · intro a ha
    simp [RkbEvmFactory.create_precompiles, ha]

/-- Witness for C9: extending the empty base set leaves address `0`
unregistered, exactly as in the base. -/
theorem create_precompiles_copy_extend_witness :
    RkbEvmFactory.create_precompiles (fun _ => none) 0 = none :=
  (create_precompiles_copy_extend (fun _ => none)).2 0 (by decide)

/-- C10: the function the factory registers at the fixed address returns
Success with gasUsed 6000 and empty output for every input payload whenever
the gas limit is at least 6000, and OutOfGas otherwise; it consults nothing
but the gas limit — no authorization, no selector dispatch, and (having no
ledger capability in its type at all) no ledger mutation. -/
theorem native_minter_fn_spec (input : List Nat) (gas_limit : Nat) :
    native_minter_fn input gas_limit =
      if gas_limit < NATIVE_MINTER_GAS_COST then .error .OutOfGas
      else .ok ⟨NATIVE_MINTER_GAS_COST, []⟩ := rfl

/-- C1: the operation the factory registers at the fixed address is the
stateless placeholder `native_minter_fn`, not the core decision procedure:
at the explicit input with caller `2` (≠ authorized `1`), gas 6000 and empty
payload, the registered function reports Success while
`NativeMinterPrecompile.call` — the §4.1 semantics the claim asserts —
rejects with Unauthorized. -/
theorem registered_fn_diverges_from_core :
    RkbEvmFactory.create_precompiles (fun _ => none) NATIVE_MINTER_ADDRESS =
      some native_minter_fn ∧
    native_minter_fn [] 6000 = .ok ⟨NATIVE_MINTER_GAS_COST, []⟩ ∧
    (NativeMinterPrecompile.call ⟨1⟩
        { caller := 2
          target_address := NATIVE_MINTER_ADDRESS
          bytecode_address := NATIVE_MINTER_ADDRESS
          gas := 6000
          data := []
          is_static := false
          ledger := zeroLedger }).1 =
      .error unauthorizedErr :=
  ⟨rfl, rfl, by decide⟩

end Rkb
